import Mathlib

/-!
Verification of the tic-tac-toe RL environment described by the repository's
specification.  The repository's notebook (`rl_tic_tac_toe.ipynb`) only
references the environment implementation (`./src/tic_tac_toe.py`, shown via
`pygmentize` but not included in the repository), so the environment's state
machine below is modelled from the specification's own algorithm description:
board as a flat 9-cell vector with values in {-1, 0, +1} (+1 agent, -1
opponent, 0 empty), a retry counter for consecutive illegal moves, reward
shaping (-0.1 illegal retry, +1 win, 0 draw, -1 loss/forfeit), forfeit after
10 consecutive illegal moves, and a randomly chosen opponent reply injected
as an explicit argument.
-/

namespace TicTacToe

/-- Modelled from the spec: the state-machine states
{Ongoing, AgentWin, OpponentWin, Draw, Forfeit}; the code realising them
(`tic_tac_toe.py`) is absent from the repository. -/
inductive GameStatus where
  | Ongoing
  | AgentWin
  | OpponentWin
  | Draw
  | Forfeit
deriving DecidableEq, Repr

/-- Modelled from the spec: the environment state — 9-cell flattened board
(values in {-1, 0, +1}), the consecutive-illegal-move retry counter and the
game status (whose non-Ongoing states realise the terminal flag). -/
structure EnvState where
  board : List Int
  retries : Nat
  status : GameStatus
deriving DecidableEq, Repr

/-- The terminal flag: true exactly in the terminal states. -/
def terminalFlag (s : EnvState) : Bool :=
  s.status != GameStatus.Ongoing

/-- Modelled from the spec: `reset()` — every cell Empty (0), retry counter 0,
terminal flag false (Ongoing). -/
def reset : EnvState :=
  ⟨List.replicate 9 0, 0, GameStatus.Ongoing⟩

/-- The observation returned to the caller: the flattened board. -/
def obs (s : EnvState) : List Int :=
  s.board

/-- Read board cell `i` (0 = Empty outside the board). -/
def cell (b : List Int) (i : Nat) : Int :=
  b.getD i 0

/-- The 8 winning lines: 3 rows, 3 columns, 2 diagonals. -/
def lines : List (Nat × Nat × Nat) :=
  [(0,1,2), (3,4,5), (6,7,8), (0,3,6), (1,4,7), (2,5,8), (0,4,8), (2,4,6)]

/-- Does mark `m` occupy all three cells of line `t`? -/
def lineWin (b : List Int) (m : Int) (t : Nat × Nat × Nat) : Bool :=
  (cell b t.1 == m) && (cell b t.2.1 == m) && (cell b t.2.2 == m)

/-- Modelled from the spec: win detection for mark `m` — exhaustive check of
the 8 winning lines. -/
def winFor (b : List Int) (m : Int) : Bool :=
  lines.any (lineWin b m)

/-- Win detection irrespective of the player: some line holds three equal
non-empty marks (either the agent's +1 or the opponent's -1). -/
def hasWin (b : List Int) : Bool :=
  winFor b 1 || winFor b (-1)

/-- Is the board full (no Empty cell)? -/
def isFull (b : List Int) : Bool :=
  b.all (fun x => x != 0)

/-- Indices of the currently empty cells. -/
def emptyCells (b : List Int) : List Nat :=
  (List.range 9).filter (fun i => cell b i == 0)

/-- Modelled from the spec: the opponent policy selects among currently empty
cells; the random draw is injected as the natural number `r` (reduced modulo
the number of empty cells), keeping the component deterministic and testable
as the spec's design notes require. -/
def oppCell (b : List Int) (r : Nat) : Nat :=
  (emptyCells b).getD (r % (emptyCells b).length) 0

/-- The result of a `step` call: observation, scalar reward, terminal flag. -/
structure StepResult where
  obs : List Int
  reward : ℚ
  done : Bool
deriving DecidableEq, Repr

/-- The illegal-move retry penalty. -/
def illegalPenalty : ℚ := -(1/10)

/-- The forfeit threshold: 10 consecutive illegal-move attempts. -/
def forfeitLimit : Nat := 10

/-- Modelled from the spec: `step(action)` — the algorithm of spec §4.1, with
the opponent's random draw injected as `r`.
1. Occupied target cell: increment the retry counter; at 10 forfeit with
   reward -1 and terminal true, otherwise reward -0.1 and terminal false,
   observation unchanged in both cases.
2. Legal move: reset the retry counter, place the agent mark; win → +1
   terminal, full board → 0 terminal (draw); otherwise the opponent marks an
   empty cell and the position is re-evaluated: opponent win → -1 terminal,
   full → 0 terminal, otherwise reward 0, non-terminal. -/
def step (s : EnvState) (a : Nat) (r : Nat) : EnvState × StepResult :=
  if cell s.board a != 0 then
    let retries' := s.retries + 1
    if forfeitLimit ≤ retries' then
      (⟨s.board, retries', GameStatus.Forfeit⟩, ⟨s.board, -1, true⟩)
    else
      (⟨s.board, retries', GameStatus.Ongoing⟩, ⟨s.board, illegalPenalty, false⟩)
  else
    let b1 := s.board.set a 1
    if winFor b1 1 then
      (⟨b1, 0, GameStatus.AgentWin⟩, ⟨b1, 1, true⟩)
    else if isFull b1 then
      (⟨b1, 0, GameStatus.Draw⟩, ⟨b1, 0, true⟩)
    else
      let b2 := b1.set (oppCell b1 r) (-1)
      if winFor b2 (-1) then
        (⟨b2, 0, GameStatus.OpponentWin⟩, ⟨b2, -1, true⟩)
      else if isFull b2 then
        (⟨b2, 0, GameStatus.Draw⟩, ⟨b2, 0, true⟩)
      else
        (⟨b2, 0, GameStatus.Ongoing⟩, ⟨b2, 0, false⟩)

/-- The environment's boundary: a `step` call is accepted only within the
caller contract — not already terminal, action in 0..8; out-of-contract
calls are rejected (`none`) without touching the state. -/
def stepChecked (s : EnvState) (a : Nat) (r : Nat) :
    Option (EnvState × StepResult) :=
  if terminalFlag s then none
  else if a < 9 then some (step s a r)
  else none

/-- The successor state of a `step` call, as a function of the state (used to
iterate a fixed action). -/
def stepB (a r : Nat) (s : EnvState) : EnvState :=
  (step s a r).1

/-- States reachable from `reset` by in-contract `step` calls. -/
inductive Reachable : EnvState → Prop
  | init : Reachable reset
  | next {s : EnvState} {a r : Nat} {p : EnvState × StepResult} :
      Reachable s → stepChecked s a r = some p → Reachable p.1

/-! ### Basic lemmas about cells, counting and empty cells -/

lemma cell_eq_getElem (b : List Int) (i : Nat) (h : i < b.length) :
    cell b i = b[i] := by
  simp [cell, List.getD_eq_getElem?_getD, List.getElem?_eq_getElem h]

lemma cell_ne_zero_lt_length {b : List Int} {i : Nat} (h : cell b i ≠ 0) :
    i < b.length := by
  by_contra hge
  have : b.getD i 0 = 0 := List.getD_eq_default _ _ (le_of_not_lt hge)
  exact h this

/-- Setting an empty cell to mark `m` adds one `m` and leaves every other
non-empty mark count unchanged. -/
lemma count_set_of_cell_zero (b : List Int) (i : Nat) (m x : Int)
    (hi : i < b.length) (h0 : cell b i = 0) (hx : x ≠ 0) :
    (b.set i m).count x = b.count x + (if m = x then 1 else 0) := by
  induction b generalizing i with
  | nil => simp at hi
  | cons hd tl ih =>
    cases i with
    | zero =>
      have hhd : hd = 0 := by simpa [cell] using h0
      subst hhd
      by_cases hxm : x = m
      · subst hxm
        simp [List.count_cons, hx]
      · simp [List.count_cons, hx, hxm, Ne.symm hxm]
    | succ n =>
      have hi' : n < tl.length := by simpa using hi
      have h0' : cell tl n = 0 := by simpa [cell] using h0
      have := ih n hi' h0'
      simp only [List.set_cons_succ, List.count_cons, this]
      omega

lemma mem_emptyCells {b : List Int} {j : Nat} (h : j ∈ emptyCells b) :
    j < 9 ∧ cell b j = 0 := by
  rw [emptyCells, List.mem_filter, List.mem_range] at h
  exact ⟨h.1, by simpa using h.2⟩

lemma emptyCells_ne_nil {b : List Int} (hlen : b.length = 9)
    (h : isFull b = false) : emptyCells b ≠ [] := by
  rw [isFull, List.all_eq_false] at h
  obtain ⟨x, hx, hx0⟩ := h
  have hx0' : x = 0 := by simpa using hx0
  obtain ⟨i, hi, hbi⟩ := List.mem_iff_getElem.mp hx
  intro hnil
  have hmem : i ∈ emptyCells b := by
    rw [emptyCells, List.mem_filter, List.mem_range]
    refine ⟨by omega, ?_⟩
    simp [cell_eq_getElem b i hi, hbi, hx0']
  rw [hnil] at hmem
  exact (List.not_mem_nil i) hmem

lemma oppCell_mem {b : List Int} (r : Nat) (h : emptyCells b ≠ []) :
    oppCell b r ∈ emptyCells b := by
  have hl : 0 < (emptyCells b).length := List.length_pos.mpr h
  have hm : r % (emptyCells b).length < (emptyCells b).length :=
    Nat.mod_lt _ hl
  rw [oppCell, List.getD_eq_getElem _ _ hm]
  exact List.getElem_mem hm

/-! ### The reachable-state invariant -/

/-- Number of AgentMark (+1) cells. -/
def agentCount (b : List Int) : Nat := b.count 1

/-- Number of OpponentMark (-1) cells. -/
def oppCount (b : List Int) : Nat := b.count (-1)

/-- The state invariant: 9 cells; mark counts balanced (equal while the game
is ongoing, agent at most one ahead in general); retry counter within 0..10
(and at most 9 while ongoing). -/
def Inv (s : EnvState) : Prop :=
  s.board.length = 9 ∧
  (s.status = GameStatus.Ongoing → agentCount s.board = oppCount s.board) ∧
  oppCount s.board ≤ agentCount s.board ∧
  agentCount s.board ≤ oppCount s.board + 1 ∧
  s.retries ≤ 10 ∧
  (s.status = GameStatus.Ongoing → s.retries ≤ 9)

lemma inv_reset : Inv reset := by
  refine ⟨by simp [reset], ?_, ?_, ?_, by simp [reset], by simp [reset]⟩ <;>
    simp [reset, agentCount, oppCount]

lemma inv_step {s : EnvState} {a r : Nat} {p : EnvState × StepResult}
    (hInv : Inv s) (hstep : stepChecked s a r = some p) : Inv p.1 := by
  obtain ⟨hlen, hbal, hle, hle1, hr10, hr9⟩ := hInv
  have hOng : s.status = GameStatus.Ongoing := by
    by_contra hne
    have hterm : terminalFlag s = true := by
      simp [terminalFlag]
      exact hne
    simp [stepChecked, hterm] at hstep
  have hterm : terminalFlag s = false := by simp [terminalFlag, hOng]
  simp only [stepChecked, hterm, Bool.false_eq_true, if_false] at hstep
  by_cases ha : a < 9
  · rw [if_pos ha] at hstep
    have hps : p = step s a r := by
      exact (Option.some_inj.mp hstep).symm
    subst hps
    by_cases hocc : cell s.board a = 0
    · -- legal move
      have haL : a < s.board.length := by omega
      have hlen1 : (s.board.set a 1).length = 9 := by simp [hlen]
      have hc1 : agentCount (s.board.set a 1) = agentCount s.board + 1 := by
        have := count_set_of_cell_zero s.board a 1 1 haL hocc one_ne_zero
        simpa [agentCount] using this
      have hc2 : oppCount (s.board.set a 1) = oppCount s.board := by
        have := count_set_of_cell_zero s.board a 1 (-1) haL hocc (by norm_num)
        simpa [oppCount] using this
      have hbal' := hbal hOng
      by_cases hw1 : winFor (s.board.set a 1) 1 = true
      · refine ⟨?_, ?_, ?_, ?_, ?_, ?_⟩ <;>
          simp [step, hocc, hw1, hlen1, hc1, hc2, hbal', hle, hle1]
      · by_cases hf1 : isFull (s.board.set a 1) = true
        · refine ⟨?_, ?_, ?_, ?_, ?_, ?_⟩ <;>
            simp [step, hocc, hw1, hf1, hlen1, hc1, hc2, hbal', hle, hle1]
        · -- opponent reply
          have hnil : emptyCells (s.board.set a 1) ≠ [] :=
            emptyCells_ne_nil hlen1 (by simpa using hf1)
          obtain ⟨hj9, hj0⟩ := mem_emptyCells (oppCell_mem r hnil)
          have hjL : oppCell (s.board.set a 1) r < (s.board.set a 1).length := by
            omega
          have hlen2 :
              ((s.board.set a 1).set (oppCell (s.board.set a 1) r) (-1)).length
                = 9 := by simp [hlen1]
          have hd1 : agentCount
              ((s.board.set a 1).set (oppCell (s.board.set a 1) r) (-1))
                = agentCount (s.board.set a 1) := by
            have := count_set_of_cell_zero (s.board.set a 1)
              (oppCell (s.board.set a 1) r) (-1) 1 hjL hj0 one_ne_zero
            simpa [agentCount] using this
          have hd2 : oppCount
              ((s.board.set a 1).set (oppCell (s.board.set a 1) r) (-1))
                = oppCount (s.board.set a 1) + 1 := by
            have := count_set_of_cell_zero (s.board.set a 1)
              (oppCell (s.board.set a 1) r) (-1) (-1) hjL hj0 (by norm_num)
            simpa [oppCount] using this
          by_cases hw2 : winFor
              ((s.board.set a 1).set (oppCell (s.board.set a 1) r) (-1)) (-1)
                = true
          · refine ⟨?_, ?_, ?_, ?_, ?_, ?_⟩ <;>
              simp [step, hocc, hw1, hf1, hw2, hlen2, hd1, hd2, hc1, hc2, hbal']
          · by_cases hf2 : isFull
                ((s.board.set a 1).set (oppCell (s.board.set a 1) r) (-1))
                  = true
            · refine ⟨?_, ?_, ?_, ?_, ?_, ?_⟩ <;>
                simp [step, hocc, hw1, hf1, hw2, hf2, hlen2, hd1, hd2, hc1,
                  hc2, hbal']
            · refine ⟨?_, ?_, ?_, ?_, ?_, ?_⟩ <;>
                simp [step, hocc, hw1, hf1, hw2, hf2, hlen2, hd1, hd2, hc1,
                  hc2, hbal']
    · -- illegal move: board unchanged
      have hr9' := hr9 hOng
      by_cases hcap : forfeitLimit ≤ s.retries + 1
      · refine ⟨?_, ?_, ?_, ?_, ?_, ?_⟩ <;>
          simp [step, hocc, hcap, hlen, hbal hOng, hle, hle1]
        omega
      · have hcap' : s.retries + 1 ≤ 9 := by
          simp [forfeitLimit] at hcap
          omega
        refine ⟨?_, ?_, ?_, ?_, ?_, ?_⟩ <;>
          simp [step, hocc, hcap, hlen, hbal hOng, hle, hle1] <;> omega
  · rw [if_neg ha] at hstep
    exact absurd hstep (by simp)

lemma inv_reachable {s : EnvState} (h : Reachable s) : Inv s := by
  induction h with
  | init => exact inv_reset
  | next hr hs ih => exact inv_step ih hs

/-! ### Concrete example states used by the witnesses -/

/-- A mid-game state with cell 0 occupied and a fresh retry counter. -/
def exOccState : EnvState :=
  ⟨[1, 0, 0, 0, 0, 0, 0, 0, 0], 0, GameStatus.Ongoing⟩

/-- A state where playing cell 2 completes the agent's top row. -/
def exWinState : EnvState :=
  ⟨[1, 1, 0, -1, -1, 0, 0, 0, 0], 0, GameStatus.Ongoing⟩

/-- A state where playing cell 2 neither wins nor fills the board. -/
def exMidState : EnvState :=
  ⟨[1, -1, 0, 0, 0, 0, 0, 0, 0], 0, GameStatus.Ongoing⟩

/-- A state where playing cell 8 fills the board with no winning line. -/
def exDrawState : EnvState :=
  ⟨[1, 1, -1, -1, -1, 1, 1, -1, 0], 0, GameStatus.Ongoing⟩

/-- A terminal (forfeited) state. -/
def exTermState : EnvState :=
  ⟨[1, 0, 0, 0, 0, 0, 0, 0, 0], 10, GameStatus.Forfeit⟩

/-! ### The claims -/

/-- Claim C6: `reset()` sets all 9 cells to Empty, the retry counter to 0, the
terminal flag to false, and returns a 9-element all-zero observation.  (In
this model `reset` is a constant, so this holds regardless of any prior
environment state.) -/
theorem C6_reset_initial_state :
    reset.board = List.replicate 9 0 ∧ reset.retries = 0 ∧
    terminalFlag reset = false ∧ obs reset = List.replicate 9 0 ∧
    (obs reset).length = 9 ∧ ∀ x ∈ obs reset, x = 0 := by
  refine ⟨rfl, rfl, by decide, rfl, by simp [obs, reset], ?_⟩
  intro x hx
  simpa [obs, reset] using hx

/-- Claim C7: in every state reachable from `reset` by `step` calls, the
OpponentMark count is at most the AgentMark count, which in turn is at most
the OpponentMark count plus one. -/
theorem C7_mark_balance (s : EnvState) (h : Reachable s) :
    oppCount s.board ≤ agentCount s.board ∧
    agentCount s.board ≤ oppCount s.board + 1 :=
  ⟨(inv_reachable h).2.2.1, (inv_reachable h).2.2.2.1⟩

/-- Witness for C7 at the initial state. -/
theorem C7_mark_balance_witness :
    oppCount reset.board ≤ agentCount reset.board ∧
    agentCount reset.board ≤ oppCount reset.board + 1 :=
  C7_mark_balance reset Reachable.init

/-- Claim C8: every legal `step` resets the retry counter to 0, and in every
reachable state the retry counter lies in 0..10 (so a forfeit requires 10
consecutive illegal attempts with no intervening legal move). -/
theorem C8_retry_counter (s : EnvState) (a r : Nat) :
    (cell s.board a = 0 → (step s a r).1.retries = 0) ∧
    (Reachable s → s.retries ≤ 10) := by
  constructor
  · intro hocc
    have hbne : (cell s.board a != 0) = false := by simp [hocc]
    simp only [step, hbne, Bool.false_eq_true, if_false]
    split
    · rfl
    · split
      · rfl
      · split
        · rfl
        · split <;> rfl
  · intro h
    exact (inv_reachable h).2.2.2.2.1

/-- Witness for C8 at the initial state with action 0. -/
theorem C8_retry_counter_witness :
    (step reset 0 0).1.retries = 0 ∧ reset.retries ≤ 10 :=
  ⟨(C8_retry_counter reset 0 0).1 (by decide),
   (C8_retry_counter reset 0 0).2 Reachable.init⟩

/-- Claim C9: terminal states are absorbing — once the terminal flag is true,
`step` is rejected at the boundary (no transition, no board mutation), and
only `reset` yields an Ongoing state again, on a fresh all-empty episode. -/
theorem C9_terminal_absorbing (s : EnvState) (a r : Nat)
    (h : terminalFlag s = true) :
    stepChecked s a r = none ∧ reset.status = GameStatus.Ongoing ∧
    terminalFlag reset = false ∧ reset.board = List.replicate 9 0 := by
  exact ⟨by simp [stepChecked, h], rfl, by decide, rfl⟩

/-- Witness for C9 at a concrete forfeited state. -/
theorem C9_terminal_absorbing_witness :
    terminalFlag exTermState = true ∧
    (stepChecked exTermState 0 0 = none ∧
     reset.status = GameStatus.Ongoing ∧ terminalFlag reset = false ∧
     reset.board = List.replicate 9 0) :=
  ⟨by decide, C9_terminal_absorbing exTermState 0 0 (by decide)⟩

/-- Claim C10: an action outside 0..8 is rejected at the boundary: the call
produces no result at all (`none`) — no clamping and no board mutation. -/
theorem C10_out_of_range_rejected (s : EnvState) (a r : Nat) (h : 9 ≤ a) :
    stepChecked s a r = none := by
  have hlt : ¬ a < 9 := by omega
  simp [stepChecked, hlt]

/-- Witness for C10 with action 9 from the initial state. -/
theorem C10_out_of_range_rejected_witness :
    9 ≤ 9 ∧ stepChecked reset 9 0 = none :=
  ⟨by decide, C10_out_of_range_rejected reset 9 0 (by decide)⟩

/-- The specification's wording of win detection: one of the 8 lines holds
three equal non-empty marks. -/
def winsSpec (b : List Int) : Prop :=
  ∃ t ∈ lines, cell b t.1 ≠ 0 ∧ cell b t.1 = cell b t.2.1 ∧
    cell b t.1 = cell b t.2.2

lemma line_mark_iff (x y z : Int) (hx : x = 0 ∨ x = 1 ∨ x = -1) :
    ((x = 1 ∧ y = 1 ∧ z = 1) ∨ (x = -1 ∧ y = -1 ∧ z = -1)) ↔
      (x ≠ 0 ∧ x = y ∧ x = z) := by
  constructor
  · rintro (⟨rfl, rfl, rfl⟩ | ⟨rfl, rfl, rfl⟩) <;> norm_num
  · rintro ⟨hx0, rfl, rfl⟩
    rcases hx with rfl | rfl | rfl
    · exact absurd rfl hx0
    · exact Or.inl ⟨rfl, rfl, rfl⟩
    · exact Or.inr ⟨rfl, rfl, rfl⟩

lemma cell_mem_range {b : List Int}
    (hvals : ∀ x ∈ b, x = 0 ∨ x = 1 ∨ x = -1) (i : Nat) :
    cell b i = 0 ∨ cell b i = 1 ∨ cell b i = -1 := by
  by_cases h : i < b.length
  · rw [cell_eq_getElem b i h]
    exact hvals _ (List.getElem_mem h)
  · exact Or.inl (List.getD_eq_default _ _ (le_of_not_lt h))

/-- Claim C5: on any board over marks {-1, 0, +1}, the win-detection check
reports a win exactly when one of the 8 lines {0,1,2},{3,4,5},{6,7,8},
{0,3,6},{1,4,7},{2,5,8},{0,4,8},{2,4,6} holds three equal non-empty marks. -/
theorem C5_win_detection (b : List Int)
    (hvals : ∀ x ∈ b, x = 0 ∨ x = 1 ∨ x = -1) :
    hasWin b = true ↔ winsSpec b := by
  have hc := cell_mem_range hvals
  rw [hasWin, Bool.or_eq_true, winFor, winFor, List.any_eq_true,
    List.any_eq_true, winsSpec]
  constructor
  · rintro (⟨t, ht, hw⟩ | ⟨t, ht, hw⟩)
    · refine ⟨t, ht, ?_⟩
      have hw' : cell b t.1 = 1 ∧ cell b t.2.1 = 1 ∧ cell b t.2.2 = 1 := by
        simpa [lineWin, and_assoc] using hw
      exact (line_mark_iff _ _ _ (hc t.1)).mp (Or.inl hw')
    · refine ⟨t, ht, ?_⟩
      have hw' : cell b t.1 = -1 ∧ cell b t.2.1 = -1 ∧ cell b t.2.2 = -1 := by
        simpa [lineWin, and_assoc] using hw
      exact (line_mark_iff _ _ _ (hc t.1)).mp (Or.inr hw')
  · rintro ⟨t, ht, hC⟩
    rcases (line_mark_iff _ _ _ (hc t.1)).mpr hC with h | h
    · exact Or.inl ⟨t, ht, by simp [lineWin, h.1, h.2.1, h.2.2]⟩
    · exact Or.inr ⟨t, ht, by simp [lineWin, h.1, h.2.1, h.2.2]⟩

/-- Witness for C5 on a board with a completed top row. -/
theorem C5_win_detection_witness :
    (∀ x ∈ [(1 : Int), 1, 1, -1, -1, 0, 0, 0, 0], x = 0 ∨ x = 1 ∨ x = -1) ∧
    (hasWin [(1 : Int), 1, 1, -1, -1, 0, 0, 0, 0] = true ↔
      winsSpec [(1 : Int), 1, 1, -1, -1, 0, 0, 0, 0]) :=
  ⟨by decide, C5_win_detection _ (by decide)⟩

/-- Claim C2: a legal move that completes an agent winning line returns
reward +1 and terminal true, and no opponent move is applied on that final
step: the returned observation is the previous board with exactly the new
AgentMark added, so the AgentMark count rises by one and the OpponentMark
count is unchanged. -/
theorem C2_agent_win (s : EnvState) (a r : Nat)
    (_hterm : terminalFlag s = false) (hlen : s.board.length = 9)
    (ha : a < 9) (hleg : cell s.board a = 0)
    (hwin : winFor (s.board.set a 1) 1 = true) :
    (step s a r).2.reward = 1 ∧ (step s a r).2.done = true ∧
    (step s a r).2.obs = s.board.set a 1 ∧
    agentCount (step s a r).2.obs = agentCount s.board + 1 ∧
    oppCount (step s a r).2.obs = oppCount s.board := by
  have haL : a < s.board.length := by omega
  have hA : agentCount (s.board.set a 1) = agentCount s.board + 1 := by
    have := count_set_of_cell_zero s.board a 1 1 haL hleg one_ne_zero
    simpa [agentCount] using this
  have hO : oppCount (s.board.set a 1) = oppCount s.board := by
    have := count_set_of_cell_zero s.board a 1 (-1) haL hleg (by norm_num)
    simpa [oppCount] using this
  refine ⟨?_, ?_, ?_, ?_, ?_⟩ <;> simp [step, hleg, hwin, hA, hO]

/-- Witness for C2: completing the top row from `exWinState`. -/
theorem C2_agent_win_witness :
    (terminalFlag exWinState = false ∧ exWinState.board.length = 9 ∧
     2 < 9 ∧ cell exWinState.board 2 = 0 ∧
     winFor (exWinState.board.set 2 1) 1 = true) ∧
    ((step exWinState 2 0).2.reward = 1 ∧
     (step exWinState 2 0).2.done = true ∧
     (step exWinState 2 0).2.obs = exWinState.board.set 2 1 ∧
     agentCount (step exWinState 2 0).2.obs = agentCount exWinState.board + 1 ∧
     oppCount (step exWinState 2 0).2.obs = oppCount exWinState.board) :=
  ⟨⟨by decide, by decide, by decide, by decide, by decide⟩,
   C2_agent_win exWinState 2 0 (by decide) (by decide) (by decide)
     (by decide) (by decide)⟩

/-- Claim C4: a legal move that fills the last empty cell with no winning
line for either side returns reward 0 and terminal true (draw), both when
the agent's own move fills the board and when the opponent's reply does. -/
theorem C4_draw_on_full_board (s : EnvState) (a r : Nat)
    (_hterm : terminalFlag s = false) (hleg : cell s.board a = 0)
    (hnw1 : winFor (s.board.set a 1) 1 = false) :
    (isFull (s.board.set a 1) = true →
       (step s a r).2.reward = 0 ∧ (step s a r).2.done = true) ∧
    (isFull (s.board.set a 1) = false →
       winFor ((s.board.set a 1).set (oppCell (s.board.set a 1) r) (-1))
           (-1) = false →
       isFull ((s.board.set a 1).set (oppCell (s.board.set a 1) r) (-1))
           = true →
       (step s a r).2.reward = 0 ∧ (step s a r).2.done = true) := by
  constructor
  · intro hf1
    refine ⟨?_, ?_⟩ <;> simp [step, hleg, hnw1, hf1]
  · intro hf1 hw2 hf2
    refine ⟨?_, ?_⟩ <;> simp [step, hleg, hnw1, hf1, hw2, hf2]

/-- Witness for C4: filling the last cell of `exDrawState` draws. -/
theorem C4_draw_on_full_board_witness :
    (terminalFlag exDrawState = false ∧ cell exDrawState.board 8 = 0 ∧
     winFor (exDrawState.board.set 8 1) 1 = false ∧
     isFull (exDrawState.board.set 8 1) = true) ∧
    ((step exDrawState 8 0).2.reward = 0 ∧
     (step exDrawState 8 0).2.done = true) :=
  ⟨⟨by decide, by decide, by decide, by decide⟩,
   (C4_draw_on_full_board exDrawState 8 0 (by decide) (by decide)
     (by decide)).1 (by decide)⟩

/-- Claim C3: a legal move that neither wins nor fills the board makes the
environment place exactly one OpponentMark at a currently empty cell before
returning: the chosen reply cell is empty on the intermediate board and in
0..8, the returned observation is the intermediate board with exactly that
one OpponentMark added, and the call ends with reward -1/terminal on an
opponent win, reward 0/terminal on a full board, and otherwise reward 0,
terminal false, with exactly one new AgentMark and one new OpponentMark. -/
theorem C3_opponent_reply (s : EnvState) (a r : Nat)
    (_hterm : terminalFlag s = false) (hlen : s.board.length = 9)
    (ha : a < 9) (hleg : cell s.board a = 0)
    (hnw1 : winFor (s.board.set a 1) 1 = false)
    (hnf1 : isFull (s.board.set a 1) = false) :
    cell (s.board.set a 1) (oppCell (s.board.set a 1) r) = 0 ∧
    oppCell (s.board.set a 1) r < 9 ∧
    (step s a r).2.obs =
      (s.board.set a 1).set (oppCell (s.board.set a 1) r) (-1) ∧
    (winFor ((s.board.set a 1).set (oppCell (s.board.set a 1) r) (-1)) (-1)
        = true →
      (step s a r).2.reward = -1 ∧ (step s a r).2.done = true) ∧
    (winFor ((s.board.set a 1).set (oppCell (s.board.set a 1) r) (-1)) (-1)
        = false →
      isFull ((s.board.set a 1).set (oppCell (s.board.set a 1) r) (-1))
        = true →
      (step s a r).2.reward = 0 ∧ (step s a r).2.done = true) ∧
    (winFor ((s.board.set a 1).set (oppCell (s.board.set a 1) r) (-1)) (-1)
        = false →
      isFull ((s.board.set a 1).set (oppCell (s.board.set a 1) r) (-1))
        = false →
      (step s a r).2.reward = 0 ∧ (step s a r).2.done = false ∧
      agentCount (step s a r).2.obs = agentCount s.board + 1 ∧
      oppCount (step s a r).2.obs = oppCount s.board + 1) := by
  have haL : a < s.board.length := by omega
  have hlen1 : (s.board.set a 1).length = 9 := by simp [hlen]
  have hnil : emptyCells (s.board.set a 1) ≠ [] :=
    emptyCells_ne_nil hlen1 hnf1
  obtain ⟨hj9, hj0⟩ := mem_emptyCells (oppCell_mem r hnil)
  have hjL : oppCell (s.board.set a 1) r < (s.board.set a 1).length := by
    omega
  have hA1 : agentCount (s.board.set a 1) = agentCount s.board + 1 := by
    have := count_set_of_cell_zero s.board a 1 1 haL hleg one_ne_zero
    simpa [agentCount] using this
  have hO1 : oppCount (s.board.set a 1) = oppCount s.board := by
    have := count_set_of_cell_zero s.board a 1 (-1) haL hleg (by norm_num)
    simpa [oppCount] using this
  have hA2 : agentCount
      ((s.board.set a 1).set (oppCell (s.board.set a 1) r) (-1)) =
        agentCount (s.board.set a 1) := by
    have := count_set_of_cell_zero (s.board.set a 1)
      (oppCell (s.board.set a 1) r) (-1) 1 hjL hj0 one_ne_zero
    simpa [agentCount] using this
  have hO2 : oppCount
      ((s.board.set a 1).set (oppCell (s.board.set a 1) r) (-1)) =
        oppCount (s.board.set a 1) + 1 := by
    have := count_set_of_cell_zero (s.board.set a 1)
      (oppCell (s.board.set a 1) r) (-1) (-1) hjL hj0 (by norm_num)
    simpa [oppCount] using this
  refine ⟨hj0, hj9, ?_, ?_, ?_, ?_⟩
  · by_cases hw2 : winFor
        ((s.board.set a 1).set (oppCell (s.board.set a 1) r) (-1)) (-1) = true
    · simp [step, hleg, hnw1, hnf1, hw2]
    · by_cases hf2 : isFull
          ((s.board.set a 1).set (oppCell (s.board.set a 1) r) (-1)) = true
      · simp [step, hleg, hnw1, hnf1, hw2, hf2]
      · simp [step, hleg, hnw1, hnf1, hw2, hf2]
  · intro hw2
    refine ⟨?_, ?_⟩ <;> simp [step, hleg, hnw1, hnf1, hw2]
  · intro hw2 hf2
    refine ⟨?_, ?_⟩ <;> simp [step, hleg, hnw1, hnf1, hw2, hf2]
  · intro hw2 hf2
    refine ⟨?_, ?_, ?_, ?_⟩ <;>
      simp [step, hleg, hnw1, hnf1, hw2, hf2, hA1, hO1, hA2, hO2]

/-- Witness for C3: a quiet move from `exMidState`; the injected draw picks
reply cell 3. -/
theorem C3_opponent_reply_witness :
    (terminalFlag exMidState = false ∧ exMidState.board.length = 9 ∧
     2 < 9 ∧ cell exMidState.board 2 = 0 ∧
     winFor (exMidState.board.set 2 1) 1 = false ∧
     isFull (exMidState.board.set 2 1) = false) ∧
    (cell (exMidState.board.set 2 1) (oppCell (exMidState.board.set 2 1) 0)
        = 0 ∧
     oppCell (exMidState.board.set 2 1) 0 < 9 ∧
     (step exMidState 2 0).2.obs =
       (exMidState.board.set 2 1).set
         (oppCell (exMidState.board.set 2 1) 0) (-1) ∧
     (step exMidState 2 0).2.reward = 0 ∧
     (step exMidState 2 0).2.done = false ∧
     agentCount (step exMidState 2 0).2.obs =
       agentCount exMidState.board + 1 ∧
     oppCount (step exMidState 2 0).2.obs =
       oppCount exMidState.board + 1) := by
  have h := C3_opponent_reply exMidState 2 0 (by decide) (by decide)
    (by decide) (by decide) (by decide) (by decide)
  have hlast := h.2.2.2.2.2 (by decide) (by decide)
  exact ⟨⟨by decide, by decide, by decide, by decide, by decide, by decide⟩,
    h.1, h.2.1, h.2.2.1, hlast.1, hlast.2.1, hlast.2.2.1, hlast.2.2.2⟩

/-- One illegal call, from any state: board and observation unchanged, retry
counter incremented, and reward/terminal flag determined by whether the
counter has reached the forfeit threshold. -/
lemma illegal_single (t : EnvState) (a r : Nat)
    (hocc : cell t.board a ≠ 0) :
    (step t a r).1.board = t.board ∧
    (step t a r).2.obs = t.board ∧
    (step t a r).1.retries = t.retries + 1 ∧
    (10 ≤ t.retries + 1 →
       (step t a r).2.reward = -1 ∧ (step t a r).2.done = true ∧
       terminalFlag (step t a r).1 = true) ∧
    (t.retries + 1 < 10 →
       (step t a r).2.reward = -(1/10) ∧ (step t a r).2.done = false) := by
  refine ⟨?_, ?_, ?_, ?_, ?_⟩
  · by_cases hcap : forfeitLimit ≤ t.retries + 1 <;> simp [step, hocc, hcap]
  · by_cases hcap : forfeitLimit ≤ t.retries + 1 <;> simp [step, hocc, hcap]
  · by_cases hcap : forfeitLimit ≤ t.retries + 1 <;> simp [step, hocc, hcap]
  · intro h10
    have hcap : forfeitLimit ≤ t.retries + 1 := by
      rw [forfeitLimit]
      omega
    refine ⟨?_, ?_, ?_⟩ <;> simp [step, hocc, hcap, terminalFlag]
  · intro h10
    have hcap : ¬ forfeitLimit ≤ t.retries + 1 := by
      rw [forfeitLimit]
      omega
    refine ⟨?_, ?_⟩ <;> simp [step, hocc, hcap, illegalPenalty]

/-- Iterating the same illegal action from a fresh retry counter: after `k`
calls (`k ≤ 9`) the board is unchanged, the retry counter equals `k`, and
the episode is still ongoing. -/
lemma illegal_iterate (s : EnvState) (a r : Nat)
    (hocc : cell s.board a ≠ 0) (h0 : s.retries = 0)
    (hOng : s.status = GameStatus.Ongoing) :
    ∀ k, k ≤ 9 → ((stepB a r)^[k] s).board = s.board ∧
      ((stepB a r)^[k] s).retries = k ∧
      ((stepB a r)^[k] s).status = GameStatus.Ongoing := by
  intro k
  induction k with
  | zero =>
    intro _
    rw [Function.iterate_zero_apply]
    exact ⟨rfl, h0, hOng⟩
  | succ n ih =>
    intro hn
    obtain ⟨hb, hr, _⟩ := ih (by omega)
    rw [Function.iterate_succ_apply']
    have hcap : ¬ forfeitLimit ≤ n + 1 := by
      rw [forfeitLimit]
      omega
    refine ⟨?_, ?_, ?_⟩ <;> simp [stepB, step, hocc, hcap, hb, hr]

/-- Claim C1: an illegal move (occupied target cell) increments the retry
counter and leaves the board and observation unchanged; when the counter
reaches 10 the episode forfeits with reward -1 and terminal true, otherwise
the call returns reward -1/10 and terminal false.  Consequently, repeating
the same illegal action from a fresh (ongoing, zero-retry) state returns
reward -1/10 and terminal false on each of the first 9 calls and reward -1
with terminal true on the 10th, with the observation identical across all 10
calls. -/
theorem C1_illegal_retry_and_forfeit (s : EnvState) (a r : Nat)
    (_hterm : terminalFlag s = false) (hocc : cell s.board a ≠ 0) :
    (step s a r).1.board = s.board ∧
    (step s a r).2.obs = s.board ∧
    (step s a r).1.retries = s.retries + 1 ∧
    (10 ≤ s.retries + 1 →
       (step s a r).2.reward = -1 ∧ (step s a r).2.done = true ∧
       terminalFlag (step s a r).1 = true) ∧
    (s.retries + 1 < 10 →
       (step s a r).2.reward = -(1/10) ∧ (step s a r).2.done = false) ∧
    (s.retries = 0 → s.status = GameStatus.Ongoing →
       (∀ k, k ≤ 9 → (step ((stepB a r)^[k] s) a r).2.obs = s.board) ∧
       (∀ k, k < 9 →
          (step ((stepB a r)^[k] s) a r).2.reward = -(1/10) ∧
          (step ((stepB a r)^[k] s) a r).2.done = false) ∧
       (step ((stepB a r)^[9] s) a r).2.reward = -1 ∧
       (step ((stepB a r)^[9] s) a r).2.done = true) := by
  have hsingle := illegal_single s a r hocc
  refine ⟨hsingle.1, hsingle.2.1, hsingle.2.2.1, hsingle.2.2.2.1,
    hsingle.2.2.2.2, ?_⟩
  intro h0 hOng
  refine ⟨?_, ?_, ?_, ?_⟩
  · intro k hk
    obtain ⟨hb, hr, _⟩ := illegal_iterate s a r hocc h0 hOng k hk
    have h := illegal_single ((stepB a r)^[k] s) a r (by rw [hb]; exact hocc)
    rw [h.2.1, hb]
  · intro k hk
    obtain ⟨hb, hr, _⟩ := illegal_iterate s a r hocc h0 hOng k (by omega)
    have h := illegal_single ((stepB a r)^[k] s) a r (by rw [hb]; exact hocc)
    exact h.2.2.2.2 (by omega)
  · obtain ⟨hb, hr, _⟩ := illegal_iterate s a r hocc h0 hOng 9 (by omega)
    have h := illegal_single ((stepB a r)^[9] s) a r (by rw [hb]; exact hocc)
    exact (h.2.2.2.1 (by omega)).1
  · obtain ⟨hb, hr, _⟩ := illegal_iterate s a r hocc h0 hOng 9 (by omega)
    have h := illegal_single ((stepB a r)^[9] s) a r (by rw [hb]; exact hocc)
    exact (h.2.2.2.1 (by omega)).2.1

/-- Witness for C1 at `exOccState` (cell 0 occupied, fresh counter): the
first call penalises with -1/10 and the 10th consecutive call forfeits. -/
theorem C1_illegal_retry_and_forfeit_witness :
    (terminalFlag exOccState = false ∧ cell exOccState.board 0 ≠ 0) ∧
    ((step exOccState 0 0).1.board = exOccState.board ∧
     (step exOccState 0 0).2.obs = exOccState.board ∧
     (step exOccState 0 0).1.retries = exOccState.retries + 1 ∧
     (10 ≤ exOccState.retries + 1 →
        (step exOccState 0 0).2.reward = -1 ∧
        (step exOccState 0 0).2.done = true ∧
        terminalFlag (step exOccState 0 0).1 = true) ∧
     (exOccState.retries + 1 < 10 →
        (step exOccState 0 0).2.reward = -(1/10) ∧
        (step exOccState 0 0).2.done = false) ∧
     (exOccState.retries = 0 → exOccState.status = GameStatus.Ongoing →
        (∀ k, k ≤ 9 →
           (step ((stepB 0 0)^[k] exOccState) 0 0).2.obs =
             exOccState.board) ∧
        (∀ k, k < 9 →
           (step ((stepB 0 0)^[k] exOccState) 0 0).2.reward = -(1/10) ∧
           (step ((stepB 0 0)^[k] exOccState) 0 0).2.done = false) ∧
        (step ((stepB 0 0)^[9] exOccState) 0 0).2.reward = -1 ∧
        (step ((stepB 0 0)^[9] exOccState) 0 0).2.done = true)) :=
  ⟨⟨by decide, by decide⟩,
   C1_illegal_retry_and_forfeit exOccState 0 0 (by decide) (by decide)⟩

end TicTacToe
